import Mathlib

/-!
Verification development for the ai-call-orchestrator service.

The definitions below are a shallow embedding of the TypeScript source:
the persistent store (`calls` table) is a `List CallEntity`, timestamps are
natural numbers (milliseconds), and each repository / service function is
translated into a pure Lean function over that state.  A partial update
(`Repository.update(id, delta)`) is embedded as a `CallUpdate` record whose
fields are `Option`s: `none` means the field is not mentioned in the delta,
and a field explicitly assigned `undefined` in the source delta is embedded
as setting the column to absent (`some none`).
-/

namespace Orchestrator

/-- Call status enum, from src/types/call.types.ts (`CallStatus`). -/
inductive CallStatus
  | pending
  | inProgress
  | completed
  | failed
  | expired
deriving DecidableEq, Repr

/-- String name of a status, as serialized in the TypeScript enum values. -/
def CallStatus.name : CallStatus → String
  | .pending => "PENDING"
  | .inProgress => "IN_PROGRESS"
  | .completed => "COMPLETED"
  | .failed => "FAILED"
  | .expired => "EXPIRED"

/-- Opaque metadata bag (`Record<string, any>`), embedded as an association list. -/
abbrev Metadata := List (String × String)

/-- Call payload, from src/types/call.types.ts (`CallPayload`).  The source
field `to` is a reserved word in Lean and is embedded as `toNumber`. -/
structure CallPayload where
  toNumber : String
  scriptId : String
  metadata : Option Metadata
deriving DecidableEq

/-- Persisted call row, from src/entities/Call.entity.ts (`CallEntity`).
Timestamps are in milliseconds. -/
structure CallEntity where
  id : String
  payload : CallPayload
  status : CallStatus
  attempts : Nat
  lastError : Option String
  createdAt : Nat
  startedAt : Option Nat
  endedAt : Option Nat
  updatedAt : Nat
  externalCallId : Option String
deriving DecidableEq

/-- The call store: the rows of the `calls` table. -/
abbrev Store := List CallEntity

instance {ε α : Type} [DecidableEq ε] [DecidableEq α] : DecidableEq (Except ε α) := fun x y =>
  match x, y with
  | .ok a, .ok b =>
    if h : a = b then isTrue (by rw [h]) else isFalse (fun hc => h (Except.ok.inj hc))
  | .error a, .error b =>
    if h : a = b then isTrue (by rw [h]) else isFalse (fun hc => h (Except.error.inj hc))
  | .ok _, .error _ => isFalse (fun hc => Except.noConfusion hc)
  | .error _, .ok _ => isFalse (fun hc => Except.noConfusion hc)

/-- A partial update (`Partial<CallEntity>` delta handed to
`Repository.update`).  An outer `none` means the column is not named in the
delta; `some none` on a nullable column means the source delta assigns it
`undefined`, clearing the column. -/
structure CallUpdate where
  payload : Option CallPayload
  status : Option CallStatus
  attempts : Option Nat
  lastError : Option (Option String)
  startedAt : Option (Option Nat)
  endedAt : Option (Option Nat)
  externalCallId : Option (Option String)
deriving DecidableEq

/-- Apply a partial update to one row; `updatedAt` is touched on every
update (TypeORM `@UpdateDateColumn`). -/
def applyUpdate (u : CallUpdate) (now : Nat) (c : CallEntity) : CallEntity :=
  { c with
    payload := u.payload.getD c.payload
    status := u.status.getD c.status
    attempts := u.attempts.getD c.attempts
    lastError := u.lastError.getD c.lastError
    startedAt := u.startedAt.getD c.startedAt
    endedAt := u.endedAt.getD c.endedAt
    externalCallId := u.externalCallId.getD c.externalCallId
    updatedAt := now }

/-- Embeds `CallRepository.findById` (src/repositories/call.repository.ts:18). -/
def findById (store : Store) (id : String) : Option CallEntity :=
  store.find? (fun c => c.id = id)

/-- Embeds `CallRepository.updateById` (src/repositories/call.repository.ts:22):
`repository.update(id, updates)`, an unconditional partial update of every
row matching the id. -/
def updateById (store : Store) (id : String) (u : CallUpdate) (now : Nat) : Store :=
  store.map (fun c => if c.id = id then applyUpdate u now c else c)

/-- Phase 1 of `CallRepository.fetchAndLockPendingCall`
(src/repositories/call.repository.ts:63-67): select the oldest row with
`status = PENDING` (order by `createdAt` ascending, `getOne`). -/
def selectOldestPending (store : Store) : Option CallEntity :=
  (store.filter (fun c => c.status = .pending)).foldl
    (fun acc c =>
      match acc with
      | none => some c
      | some b => if c.createdAt < b.createdAt then some c else some b)
    none

/-- Phase 2 of `CallRepository.fetchAndLockPendingCall`
(src/repositories/call.repository.ts:74-90): the conditional update
`SET status = IN_PROGRESS, startedAt = now WHERE id = :id AND status = PENDING`,
returning whether any row was affected together with the new store. -/
def conditionalClaim (store : Store) (id : String) (now : Nat) : Bool × Store :=
  let hit := fun (c : CallEntity) => c.id = id ∧ c.status = .pending
  (decide ((store.filter (fun c => decide (hit c))).length ≠ 0),
   store.map (fun c =>
     if hit c then
       { c with status := .inProgress, startedAt := some now, updatedAt := now }
     else c))

/-- Embeds `CallRepository.fetchAndLockPendingCall`
(src/repositories/call.repository.ts:60-101), run sequentially: read the
oldest pending row, then conditionally flip it to `IN_PROGRESS`; return the
re-read row only if the conditional write affected a row. -/
def fetchAndLockPendingCall (store : Store) (now : Nat) : Option CallEntity × Store :=
  match selectOldestPending store with
  | none => (none, store)
  | some c =>
    let r := conditionalClaim store c.id now
    if r.1 then (findById r.2 c.id, r.2) else (none, r.2)

/-- Embeds `CallRepository.findByExternalCallId` (src/repositories/call.repository.ts:134). -/
def findByExternalCallId (store : Store) (x : String) : Option CallEntity :=
  store.find? (fun c => c.externalCallId = some x)

/-- Embeds `CallRepository.findActiveCallByPhoneNumber`
(src/repositories/call.repository.ts:140-148): first row whose status is
`PENDING` or `IN_PROGRESS` and whose `payload->>'to'` equals the number. -/
def findActiveCallByPhoneNumber (store : Store) (phone : String) : Option CallEntity :=
  store.find? (fun c =>
    (c.status = .pending ∨ c.status = .inProgress) ∧ c.payload.toNumber = phone)

/-- Embeds `CallRepository.markExpiredCalls` (src/repositories/call.repository.ts:151-164):
flip `PENDING` rows created before `maxAge` to `EXPIRED`. -/
def markExpiredCalls (store : Store) (maxAge : Nat) (now : Nat) : Nat × Store :=
  let hit := fun (c : CallEntity) => c.status = .pending ∧ c.createdAt < maxAge
  ((store.filter (fun c => decide (hit c))).length,
   store.map (fun c =>
     if hit c then { c with status := .expired, endedAt := some now, updatedAt := now }
     else c))

/-! ### Call dispatcher (src/services/aiCall.service.ts) -/

/-- Body of the provider's HTTP answer (`AICallResponse`): the external
correlation id and a status string. -/
structure AICallResponse where
  callId : String
  status : String
deriving DecidableEq

/-- Outcome of the outbound HTTP request as the axios layer presents it to
`initiateCall`: either an HTTP response (any status, with the parsed body)
or a transport-level error carrying a node error code such as
`ECONNREFUSED` or `ETIMEDOUT`. -/
inductive ProviderResult
  | http (status : Nat) (body : AICallResponse)
  | netError (code : String)
deriving DecidableEq

/-- The shape `isRetryableError` inspects on a caught error: an optional
node error code (`error.code`) and an optional HTTP status
(`error.response?.status`); both are absent on a plain thrown `Error`. -/
structure CaughtError where
  code : Option String
  responseStatus : Option Nat
deriving DecidableEq

/-- Embeds `AICallService.isRetryableError` (src/services/aiCall.service.ts:68-86). -/
def isRetryableError (e : CaughtError) : Bool :=
  if e.code = some "ECONNREFUSED" ∨ e.code = some "ETIMEDOUT" then true
  else if e.responseStatus.any (fun s => decide (500 ≤ s)) then true
  else if e.responseStatus = some 429 then true
  else false

/-- A classified dispatch failure: `RetryableError` / `NonRetryableError`
(src/services/aiCall.service.ts:89-101). -/
inductive DispatchError
  | retryable (message : String)
  | nonRetryable (message : String)
deriving DecidableEq

/-- Embeds `AICallService.initiateCall` (src/services/aiCall.service.ts:16-66).
Axios resolves 2xx responses and rejects everything else; inside the 2xx
branch the code accepts exactly status 202 and otherwise throws a plain
`Error` (no `code`, no `response`), which the catch block classifies.  A
rejected non-2xx response is classified through `error.response.status`; a
transport error through `error.code`. -/
def initiateCall (r : ProviderResult) : Except DispatchError AICallResponse :=
  let classify := fun (e : CaughtError) (msg : String) =>
    if isRetryableError e then Except.error (DispatchError.retryable msg)
    else Except.error (DispatchError.nonRetryable msg)
  match r with
  | .http s body =>
    if 200 ≤ s ∧ s < 300 then
      if s = 202 then .ok body
      else classify ⟨none, none⟩ ("Unexpected response status: " ++ toString s)
    else classify ⟨none, some s⟩ ("Request failed with status code " ++ toString s)
  | .netError c => classify ⟨some c, none⟩ c

/-- Whether a dispatch outcome is a retryable failure. -/
def isRetryableOutcome : Except DispatchError AICallResponse → Bool
  | .error (.retryable _) => true
  | _ => false

/-- Whether a dispatch outcome is a non-retryable failure. -/
def isNonRetryableOutcome : Except DispatchError AICallResponse → Bool
  | .error (.nonRetryable _) => true
  | _ => false

/-! ### Delay queue (src/services/queue.service.ts) -/

/-- In-memory delay queue: `(callId, scheduledAt)` pairs. -/
abbrev Queue := List (String × Nat)

/-- Embeds `QueueService.enqueueCallWithDelay` (src/services/queue.service.ts:21-35):
push the call id with `scheduledAt = now + delayMs`. -/
def enqueueCallWithDelay (q : Queue) (callId : String) (delayMs : Nat) (now : Nat) : Queue :=
  q ++ [(callId, now + delayMs)]

/-! ### Call service (src/services/call.service.ts) -/

/-- In-memory dispatch failure handed to `handleCallFailure`: the
`instanceof RetryableError` test is embedded as the `retryable` flag. -/
structure DispatchFailure where
  retryable : Bool
  message : String
deriving DecidableEq

/-- Embeds `CallService.handleCallFailure` (src/services/call.service.ts:186-234).
`newAttempts = attempts + 1`; a retryable failure below the retry cap puts
the record back to `PENDING` with `startedAt: undefined` (embedded as
clearing the column) and enqueues the id with delay `2 ^ newAttempts * 1000`
milliseconds; otherwise the record becomes terminal `FAILED` with
`endedAt = now`. -/
def handleCallFailure (store : Store) (q : Queue) (c : CallEntity)
    (err : DispatchFailure) (maxRetryAttempts : Nat) (now : Nat) : Store × Queue :=
  let newAttempts := c.attempts + 1
  if err.retryable = true ∧ newAttempts < maxRetryAttempts then
    let store' := updateById store c.id
      ⟨none, some .pending, some newAttempts, some (some err.message), some none, none, none⟩ now
    let backoffDelay := 2 ^ newAttempts * 1000
    (store', enqueueCallWithDelay q c.id backoffDelay now)
  else
    (updateById store c.id
      ⟨none, some .failed, some newAttempts, some (some err.message), none, some (some now), none⟩ now,
     q)

/-- Webhook outcome vocabulary (src/types/call.types.ts `WebhookCallbackPayload.status`). -/
inductive WebhookStatus
  | wCompleted
  | wFailed
  | wBusy
  | wNoAnswer
deriving DecidableEq

/-- Serialized name of a webhook outcome. -/
def WebhookStatus.name : WebhookStatus → String
  | .wCompleted => "COMPLETED"
  | .wFailed => "FAILED"
  | .wBusy => "BUSY"
  | .wNoAnswer => "NO_ANSWER"

/-- Completion-signal payload (src/types/call.types.ts
`WebhookCallbackPayload`); `completedAt` is embedded as a millisecond
timestamp. -/
structure WebhookCallbackPayload where
  callId : String
  status : WebhookStatus
  durationSec : Option Nat
  completedAt : Nat
deriving DecidableEq

/-- Embeds `CallService.handleWebhookCallback` (src/services/call.service.ts:237-263).
Look up by external call id; if absent, return unchanged.  Otherwise apply
`status = COMPLETED` when the payload says `COMPLETED`, else `FAILED` with
`lastError = "AI call <status>"`, and `endedAt = completedAt` — applied
unconditionally, with no check of the record's current status. -/
def handleWebhookCallback (store : Store) (p : WebhookCallbackPayload) (now : Nat) : Store :=
  match findByExternalCallId store p.callId with
  | none => store
  | some c =>
    let isSuccess := p.status = WebhookStatus.wCompleted
    let finalStatus := if isSuccess then CallStatus.completed else CallStatus.failed
    updateById store c.id
      ⟨none, some finalStatus, none,
       some (if isSuccess then none else some ("AI call " ++ p.status.name)),
       none, some (some p.completedAt), none⟩ now

/-- Create request (src/types/call.types.ts `CreateCallRequest`). -/
structure CreateCallRequest where
  toNumber : String
  scriptId : String
  metadata : Option Metadata
deriving DecidableEq

/-- Embeds `CallService.createCall` (src/services/call.service.ts:33-59): reject
with the conflict message when an active call exists for the number,
otherwise insert a fresh `PENDING` record with `attempts = 0`. -/
def createCall (store : Store) (req : CreateCallRequest) (newId : String) (now : Nat) :
    Except String (CallEntity × Store) :=
  match findActiveCallByPhoneNumber store req.toNumber with
  | some existing =>
    .error ("Call already active for phone number: " ++ req.toNumber ++
            " (Status: " ++ existing.status.name ++ ")")
  | none =>
    let c : CallEntity :=
      { id := newId
        payload := ⟨req.toNumber, req.scriptId, req.metadata⟩
        status := .pending
        attempts := 0
        lastError := none
        createdAt := now
        startedAt := none
        endedAt := none
        updatedAt := now
        externalCallId := none }
    .ok (c, store ++ [c])

/-- Partial payload delta (src/types/call.types.ts `UpdateCallRequest.payload`,
a `Partial<CallPayload>`): `none` fields are absent from the delta. -/
structure PayloadDelta where
  toNumber : Option String
  scriptId : Option String
  metadata : Option Metadata
deriving DecidableEq

/-- Update request (`UpdateCallRequest`); the whole `payload` key may be absent. -/
structure UpdateCallRequest where
  payload : Option PayloadDelta
deriving DecidableEq

/-- The object spread `{ ...existingCall.payload, ...request.payload }`
(src/services/call.service.ts:78): keys present in the delta overwrite,
absent keys keep the existing value. -/
def mergePayload (p : CallPayload) (d : Option PayloadDelta) : CallPayload :=
  match d with
  | none => p
  | some δ =>
    { toNumber := δ.toNumber.getD p.toNumber
      scriptId := δ.scriptId.getD p.scriptId
      metadata := match δ.metadata with | some m => some m | none => p.metadata }

/-- Embeds `CallService.updateCall` (src/services/call.service.ts:66-82): absent id
yields `none`; a non-`PENDING` record throws; otherwise only the merged
payload is written. -/
def updateCall (store : Store) (id : String) (req : UpdateCallRequest) (now : Nat) :
    Except String (Option CallEntity × Store) :=
  match findById store id with
  | none => .ok (none, store)
  | some existing =>
    if existing.status = CallStatus.pending then
      let store' := updateById store id
        ⟨some (mergePayload existing.payload req.payload), none, none, none, none, none, none⟩ now
      .ok (findById store' id, store')
    else
      .error "Can only update calls with PENDING status"

/-! ### Controller layer (src/controllers/call.controller.ts) -/

/-- Whether `pat` matches at the head of `l`. -/
def leadMatch : List Char → List Char → Bool
  | [], _ => true
  | _ :: _, [] => false
  | a :: as, b :: bs => a = b && leadMatch as bs

/-- Whether `pat` occurs somewhere in `l`. -/
def hasSub (pat : List Char) : List Char → Bool
  | [] => leadMatch pat []
  | b :: bs => leadMatch pat (b :: bs) || hasSub pat bs

/-- JavaScript `string.includes(pat)`. -/
def strContains (s pat : String) : Bool :=
  hasSub pat.toList s.toList

/-- HTTP answer of the create endpoint, as far as the embedding needs it:
201 created, 409 conflict, or 500 internal server error.  (The Joi
validation branch is not modelled; requests are assumed well-formed.) -/
inductive CreateResponse
  | created (call : CallEntity)
  | conflict (message : String)
  | serverError
deriving DecidableEq

/-- Embeds `CallController.createCall` (src/controllers/call.controller.ts:15-51):
on a thrown error, answer 409 only when the message contains the substring
`"already in progress"`, otherwise 500. -/
def createCallController (store : Store) (req : CreateCallRequest) (newId : String) (now : Nat) :
    CreateResponse × Store :=
  match createCall store req newId now with
  | .ok (call, store') => (.created call, store')
  | .error msg =>
    if strContains msg "already in progress" then (.conflict msg, store)
    else (.serverError, store)

/-- List query (src/types/call.types.ts `CallListQuery`); `page` and `limit`
are the integers parsed from the query string, absent when not supplied. -/
structure CallListQuery where
  status : Option CallStatus
  page : Option Int
  limit : Option Int
deriving DecidableEq

/-- JavaScript `x || d` on an optional number: `0` is falsy. -/
def jsOr (x : Option Int) (d : Int) : Int :=
  match x with
  | some v => if v = 0 then d else v
  | none => d

/-- Insert into a list kept sorted by `createdAt` descending. -/
def insertByCreatedAtDesc (c : CallEntity) : List CallEntity → List CallEntity
  | [] => [c]
  | b :: bs =>
    if b.createdAt < c.createdAt then c :: b :: bs
    else b :: insertByCreatedAtDesc c bs

/-- Order rows by `createdAt` descending (`orderBy('call.createdAt', 'DESC')`). -/
def sortByCreatedAtDesc (l : List CallEntity) : List CallEntity :=
  l.foldr insertByCreatedAtDesc []

/-- Embeds `CallRepository.findWithPagination` (src/repositories/call.repository.ts:39-57):
destructuring defaults `page = 1`, `limit = 10` apply only when the field is
absent; `skip = (page - 1) * limit`; the count is taken with the same status
filter.  The query is executed by the backing store, which rejects a
negative `OFFSET` or `LIMIT` (Postgres: "OFFSET must not be negative"), so
the repository call throws instead of returning a page; this is the
`Except.error` branch (the message stands for the store's error, which the
caller discards).  A negative skip is reachable through the controller
exactly when the requested page is 0. -/
def findWithPagination (store : Store) (q : CallListQuery) :
    Except String (List CallEntity × Nat) :=
  let page := q.page.getD 1
  let limit := q.limit.getD 10
  let skip := (page - 1) * limit
  if skip < 0 ∨ limit < 0 then .error "OFFSET and LIMIT must not be negative"
  else
    let filtered := match q.status with
      | some s => store.filter (fun c => c.status = s)
      | none => store
    let sorted := sortByCreatedAtDesc filtered
    .ok ((sorted.drop skip.toNat).take limit.toNat, filtered.length)

/-- HTTP answer of the list endpoint: a 400 validation rejection, a 500
internal server error (the controller's catch block,
src/controllers/call.controller.ts:168-175), or a 200 page with its
pagination block. -/
inductive ListResponse
  | validationError (message : String)
  | serverError
  | ok (calls : List CallEntity) (total : Nat) (page : Int) (limit : Int) (totalPages : Nat)
deriving DecidableEq

/-- Ceiling division on a natural total by a positive limit
(`Math.ceil(total / limit)`). -/
def ceilPages (total : Nat) (limit : Int) : Nat :=
  (total + limit.toNat - 1) / limit.toNat

/-- Embeds `CallController.listCalls` (src/controllers/call.controller.ts:131-176)
composed with `CallService.getCallsByStatus`
(src/services/call.service.ts:84-93).  The guards are JavaScript truthiness
tests: `query.page && query.page < 1` and
`query.limit && (query.limit < 1 || query.limit > 100)`, so the value `0`
skips both guards.  A store error thrown inside `findWithPagination` is
caught by the controller and answered as a 500.  The reported `page`/`limit`
come from the service's `query.page || 1` / `query.limit || 10`. -/
def listCalls (store : Store) (q : CallListQuery) : ListResponse :=
  if (match q.page with | some p => decide (p ≠ 0 ∧ p < 1) | none => false) then
    .validationError "Page must be greater than 0"
  else if (match q.limit with | some l => decide (l ≠ 0 ∧ (l < 1 ∨ 100 < l)) | none => false) then
    .validationError "Limit must be between 1 and 100"
  else
    match findWithPagination store q with
    | .error _ => .serverError
    | .ok r =>
      let rpage := jsOr q.page 1
      let rlimit := jsOr q.limit 10
      .ok r.1 r.2 rpage rlimit (ceilPages r.2 rlimit)

/-! ### Interleaved executions of `fetchAndLockPendingCall`

`fetchAndLockPendingCall` issues two store operations: the read
(`selectOldestPending`) and the conditional write (`conditionalClaim`).
Each store operation is individually atomic, but a concurrent worker may
run between the two.  A `ClaimWorker` is one in-flight invocation; an
execution is an arbitrary interleaving (schedule) of worker steps against
the shared store. -/

/-- One in-flight invocation of `fetchAndLockPendingCall`.  `now` is the
wall-clock instant this worker's conditional write stamps into `startedAt`;
`target` is the id returned by its read phase; `claimed` records whether
its conditional write affected a row (the invocation returns the record
exactly when it did). -/
structure ClaimWorker where
  now : Nat
  readDone : Bool
  target : Option String
  updateDone : Bool
  claimed : Bool
deriving DecidableEq

/-- A worker that has not run yet. -/
def initialWorker (w : ClaimWorker) : Prop :=
  w.readDone = false ∧ w.target = none ∧ w.updateDone = false ∧ w.claimed = false

/-- A worker whose invocation has returned: the read happened, and if the
read produced a row the conditional write happened too. -/
def finishedW (w : ClaimWorker) : Prop :=
  w.readDone = true ∧ (w.target ≠ none → w.updateDone = true)

instance (w : ClaimWorker) : Decidable (initialWorker w) :=
  inferInstanceAs (Decidable (_ ∧ _ ∧ _ ∧ _))

instance (w : ClaimWorker) : Decidable (finishedW w) :=
  inferInstanceAs (Decidable (_ ∧ (_ → _)))

/-- Execute the next pending store operation of one worker. -/
def workerStep (store : Store) (w : ClaimWorker) : Store × ClaimWorker :=
  if w.readDone = false then
    match selectOldestPending store with
    | some c => (store, { w with readDone := true, target := some c.id })
    | none => (store, { w with readDone := true, target := none })
  else
    match w.target with
    | some id =>
      if w.updateDone = false then
        let r := conditionalClaim store id w.now
        (r.2, { w with updateDone := true, claimed := r.1 })
      else (store, w)
    | none => (store, w)

/-- Run one step of the worker at position `i` (no-op when out of range). -/
def stepAt (store : Store) (ws : List ClaimWorker) : Nat → Store × List ClaimWorker
  | i =>
    match ws, i with
    | [], _ => (store, [])
    | w :: rest, 0 =>
      let r := workerStep store w
      (r.1, r.2 :: rest)
    | w :: rest, Nat.succ j =>
      let r := stepAt store rest j
      (r.1, w :: r.2)

/-- Run a whole schedule of worker steps. -/
def runSchedule (store : Store) (ws : List ClaimWorker) : List Nat → Store × List ClaimWorker
  | [] => (store, ws)
  | i :: rest =>
    let r := stepAt store ws i
    runSchedule r.1 r.2 rest

/-- Number of workers whose conditional write succeeded. -/
def claimedCount (ws : List ClaimWorker) : Nat :=
  ws.countP (fun w => w.claimed)

/-- The row as `conditionalClaim` leaves it: `IN_PROGRESS` with
`startedAt` stamped. -/
def claimedVersion (c : CallEntity) (t : Nat) : CallEntity :=
  { c with status := .inProgress, startedAt := some t, updatedAt := t }

/-- Per-worker bookkeeping facts tied to the current success count. -/
def WFacts (cid : String) (cnt : Nat) (w : ClaimWorker) : Prop :=
  (w.readDone = false → w.target = none ∧ w.updateDone = false) ∧
  (∀ x, w.target = some x → x = cid) ∧
  (w.readDone = true → w.target = none → 1 ≤ cnt) ∧
  (w.updateDone = true → ∃ x, w.target = some x) ∧
  (w.claimed = true → w.updateDone = true) ∧
  (w.updateDone = true → w.claimed = false → 1 ≤ cnt)

/-- System invariant for executions started from a store holding the single
pending record `c`: the store is either still `[c]` with no success, or the
claimed version of `c` with exactly one success, and every worker's local
state is consistent with that count. -/
def ClaimInv (c : CallEntity) (store : Store) (ws : List ClaimWorker) : Prop :=
  ((store = [c] ∧ claimedCount ws = 0) ∨
    (∃ t, store = [claimedVersion c t] ∧ claimedCount ws = 1)) ∧
  ∀ w ∈ ws, WFacts c.id (claimedCount ws) w

end Orchestrator

namespace Orchestrator

/-- A single pending record used to instantiate the universally quantified
theorems on concrete input. -/
def demoCall : CallEntity :=
  { id := "call-1"
    payload := { toNumber := "+966501234567", scriptId := "welcomeFlow", metadata := none }
    status := .pending
    attempts := 0
    lastError := none
    createdAt := 10
    startedAt := none
    endedAt := none
    updatedAt := 10
    externalCallId := none }

/-- Three claim workers that have not run yet. -/
def demoWorkers : List ClaimWorker :=
  [⟨100, false, none, false, false⟩, ⟨101, false, none, false, false⟩,
   ⟨102, false, none, false, false⟩]

/-- A fully interleaved schedule: all three reads race ahead of all three
conditional writes. -/
def demoSchedule : List Nat := [0, 1, 2, 1, 0, 2]

/-- A record already in terminal status `COMPLETED`, correlated to the
external id `ext-9`. -/
def completedDemoCall : CallEntity :=
  { id := "call-1"
    payload := { toNumber := "+966501234567", scriptId := "welcomeFlow", metadata := none }
    status := .completed
    attempts := 1
    lastError := none
    createdAt := 10
    startedAt := some 50
    endedAt := some 100
    updatedAt := 100
    externalCallId := some "ext-9" }

/-- An `IN_PROGRESS` record as the dispatch loop holds it when a dispatch
attempt fails. -/
def claimedDemoCall : CallEntity :=
  { id := "call-1"
    payload := { toNumber := "+966501234567", scriptId := "welcomeFlow", metadata := none }
    status := .inProgress
    attempts := 0
    lastError := none
    createdAt := 10
    startedAt := some 50
    endedAt := none
    updatedAt := 50
    externalCallId := none }


/-! ### Lemmas about interleaved claim executions -/

lemma selectOldestPending_single_pending {c : CallEntity} (hc : c.status = .pending) :
    selectOldestPending [c] = some c := by
  simp [selectOldestPending, hc]

lemma selectOldestPending_single_claimed (c : CallEntity) (t : Nat) :
    selectOldestPending [claimedVersion c t] = none := by
  simp [selectOldestPending, claimedVersion]

lemma conditionalClaim_single_pending {c : CallEntity} (hc : c.status = .pending) (now : Nat) :
    conditionalClaim [c] c.id now = (true, [claimedVersion c now]) := by
  simp [conditionalClaim, hc, claimedVersion]

lemma conditionalClaim_single_claimed (c : CallEntity) (t : Nat) (id : String) (now : Nat) :
    conditionalClaim [claimedVersion c t] id now = (false, [claimedVersion c t]) := by
  simp [conditionalClaim, claimedVersion]

lemma claimedCount_middle (l₁ l₂ : List ClaimWorker) (w : ClaimWorker) :
    claimedCount (l₁ ++ w :: l₂) =
      claimedCount l₁ + claimedCount l₂ + (if w.claimed = true then 1 else 0) := by
  simp [claimedCount, List.countP_append, List.countP_cons]
  omega

lemma wfacts_mono {cid : String} {cnt cnt' : Nat} (hle : cnt ≤ cnt') {w : ClaimWorker}
    (h : WFacts cid cnt w) : WFacts cid cnt' w := by
  obtain ⟨f1, f2, f3, f4, f5, f6⟩ := h
  exact ⟨f1, f2, fun a b => le_trans (f3 a b) hle, f4, f5, fun a b => le_trans (f6 a b) hle⟩

lemma stepAt_cases (store : Store) (ws : List ClaimWorker) (i : Nat) :
    stepAt store ws i = (store, ws) ∨
    ∃ l₁ w l₂, ws = l₁ ++ w :: l₂ ∧
      stepAt store ws i = ((workerStep store w).1, l₁ ++ (workerStep store w).2 :: l₂) := by
  induction ws generalizing i with
  | nil => left; simp [stepAt]
  | cons w rest ih =>
    cases i with
    | zero =>
      right
      exact ⟨[], w, rest, rfl, by simp [stepAt]⟩
    | succ j =>
      rcases ih j with h | ⟨l₁, w', l₂, hws, hstep⟩
      · left; simp [stepAt, h]
      · right
        refine ⟨w :: l₁, w', l₂, by simp [hws], ?_⟩
        simp [stepAt, hstep]

lemma claimInv_stepAt {c : CallEntity} (hc : c.status = .pending)
    (store : Store) (ws : List ClaimWorker) (i : Nat)
    (h : ClaimInv c store ws) :
    ClaimInv c (stepAt store ws i).1 (stepAt store ws i).2 := by
  rcases stepAt_cases store ws i with heq | ⟨l₁, w, l₂, hws, heq⟩
  · rw [heq]; exact h
  · subst hws
    obtain ⟨hdisj, hfacts⟩ := h
    obtain ⟨f1, f2, f3, f4, f5, f6⟩ := hfacts w (by simp)
    by_cases hrd : w.readDone = false
    · -- read phase
      obtain ⟨htg, hud⟩ := f1 hrd
      have hcl : w.claimed = false := by
        cases hclaimed : w.claimed
        · rfl
        · rw [f5 hclaimed] at hud; exact absurd hud (by simp)
      rcases hdisj with ⟨hst, hcnt⟩ | ⟨t, hst, hcnt⟩
      · -- store still [c]
        have hstep : workerStep store w =
            (store, { w with readDone := true, target := some c.id }) := by
          rw [hst]
          simp [workerStep, hrd, selectOldestPending_single_pending hc]
        rw [heq, hstep]
        have hcnt' : claimedCount (l₁ ++ { w with readDone := true, target := some c.id } :: l₂) =
            claimedCount (l₁ ++ w :: l₂) := by
          rw [claimedCount_middle, claimedCount_middle]
        constructor
        · left; exact ⟨hst, by rw [hcnt', hcnt]⟩
        · intro w'' hw''
          rcases List.mem_append.mp hw'' with h1 | h2
          · exact wfacts_mono (by rw [hcnt']) (hfacts w'' (by simp [h1]))
          · rcases List.mem_cons.mp h2 with h2 | h3
            · subst h2
              refine ⟨fun hr => absurd hr (by simp), fun x hx => ?_, fun _ hn => ?_,
                fun hu => absurd (hud ▸ hu) (by simp [hud]), fun hcl' => ?_, fun hu _ => ?_⟩
              · exact (Option.some.inj hx).symm
              · exact absurd hn (by simp)
              · exact absurd (hcl ▸ hcl') (by simp [hcl])
              · exact absurd (hud ▸ hu) (by simp [hud])
            · exact wfacts_mono (by rw [hcnt']) (hfacts w'' (by simp [h3]))
      · -- store already claimed
        have hstep : workerStep store w =
            (store, { w with readDone := true, target := none }) := by
          rw [hst]
          simp [workerStep, hrd, selectOldestPending_single_claimed]
        rw [heq, hstep]
        have hcnt' : claimedCount (l₁ ++ { w with readDone := true, target := none } :: l₂) =
            claimedCount (l₁ ++ w :: l₂) := by
          rw [claimedCount_middle, claimedCount_middle]
        constructor
        · right; exact ⟨t, hst, by rw [hcnt', hcnt]⟩
        · intro w'' hw''
          rcases List.mem_append.mp hw'' with h1 | h2
          · exact wfacts_mono (by rw [hcnt']) (hfacts w'' (by simp [h1]))
          · rcases List.mem_cons.mp h2 with h2 | h3
            · subst h2
              refine ⟨fun hr => absurd hr (by simp), fun x hx => absurd hx (by simp),
                fun _ _ => ?_, fun hu => absurd (hud ▸ hu) (by simp [hud]),
                fun hcl' => absurd (hcl ▸ hcl') (by simp [hcl]),
                fun hu _ => absurd (hud ▸ hu) (by simp [hud])⟩
              rw [hcnt', hcnt]
            · exact wfacts_mono (by rw [hcnt']) (hfacts w'' (by simp [h3]))
    · -- write phase or finished
      have hrd' : w.readDone = true := by
        cases hr : w.readDone
        · exact absurd hr hrd
        · rfl
      cases htg : w.target with
      | none =>
        have hstep : workerStep store w = (store, w) := by
          simp [workerStep, hrd', htg]
        rw [heq, hstep]
        exact ⟨hdisj, hfacts⟩
      | some id =>
        have hid : id = c.id := f2 id htg
        subst hid
        by_cases hud : w.updateDone = false
        · -- the conditional write happens now
          have hcl : w.claimed = false := by
            cases hclaimed : w.claimed
            · rfl
            · rw [f5 hclaimed] at hud; exact absurd hud (by simp)
          rcases hdisj with ⟨hst, hcnt⟩ | ⟨t, hst, hcnt⟩
          · -- record still pending: this write wins
            have hstep : workerStep store w =
                ([claimedVersion c w.now],
                 { w with updateDone := true, claimed := true }) := by
              rw [hst]
              simp [workerStep, hrd', htg, hud, conditionalClaim_single_pending hc]
            rw [heq, hstep]
            have hcnt' : claimedCount
                (l₁ ++ { w with updateDone := true, claimed := true } :: l₂) =
                claimedCount (l₁ ++ w :: l₂) + 1 := by
              rw [claimedCount_middle, claimedCount_middle, hcl]
              simp
            constructor
            · right
              exact ⟨w.now, rfl, by rw [hcnt', hcnt]⟩
            · intro w'' hw''
              rcases List.mem_append.mp hw'' with h1 | h2
              · exact wfacts_mono (by rw [hcnt']; omega) (hfacts w'' (by simp [h1]))
              · rcases List.mem_cons.mp h2 with h2 | h3
                · subst h2
                  refine ⟨fun hr => absurd (hrd' ▸ hr) (by simp [hrd']),
                    fun x hx => f2 x hx,
                    fun _ hn => absurd hn (by simp [htg]), fun _ => ⟨c.id, by simp [htg]⟩,
                    fun _ => rfl, fun _ hne => absurd hne (by simp)⟩
                · exact wfacts_mono (by rw [hcnt']; omega) (hfacts w'' (by simp [h3]))
          · -- record already claimed: this write loses
            have hstep : workerStep store w =
                (store, { w with updateDone := true, claimed := false }) := by
              rw [hst]
              simp [workerStep, hrd', htg, hud, conditionalClaim_single_claimed]
            rw [heq, hstep]
            have hcnt' : claimedCount
                (l₁ ++ { w with updateDone := true, claimed := false } :: l₂) =
                claimedCount (l₁ ++ w :: l₂) := by
              rw [claimedCount_middle, claimedCount_middle, hcl]
            constructor
            · right; exact ⟨t, hst, by rw [hcnt', hcnt]⟩
            · intro w'' hw''
              rcases List.mem_append.mp hw'' with h1 | h2
              · exact wfacts_mono (by rw [hcnt']) (hfacts w'' (by simp [h1]))
              · rcases List.mem_cons.mp h2 with h2 | h3
                · subst h2
                  refine ⟨fun hr => absurd (hrd' ▸ hr) (by simp [hrd']),
                    fun x hx => f2 x hx,
                    fun _ hn => absurd hn (by simp [htg]), fun _ => ⟨c.id, by simp [htg]⟩,
                    fun hcl' => absurd hcl' (by simp), fun _ _ => ?_⟩
                  rw [hcnt', hcnt]
                · exact wfacts_mono (by rw [hcnt']) (hfacts w'' (by simp [h3]))
        · -- already finished: no-op
          have hud' : w.updateDone = true := by
            cases hu : w.updateDone
            · exact absurd hu hud
            · rfl
          have hstep : workerStep store w = (store, w) := by
            simp [workerStep, hrd', htg, hud']
          rw [heq, hstep]
          exact ⟨hdisj, hfacts⟩

lemma claimInv_runSchedule {c : CallEntity} (hc : c.status = .pending)
    (sched : List Nat) :
    ∀ (store : Store) (ws : List ClaimWorker), ClaimInv c store ws →
      ClaimInv c (runSchedule store ws sched).1 (runSchedule store ws sched).2 := by
  induction sched with
  | nil => intro store ws h; exact h
  | cons i rest ih =>
    intro store ws h
    exact ih _ _ (claimInv_stepAt hc store ws i h)

lemma stepAt_length (store : Store) (ws : List ClaimWorker) (i : Nat) :
    (stepAt store ws i).2.length = ws.length := by
  induction ws generalizing i with
  | nil => simp [stepAt]
  | cons w rest ih =>
    cases i with
    | zero => simp [stepAt]
    | succ j => simp [stepAt, ih j]

lemma runSchedule_length (sched : List Nat) :
    ∀ (store : Store) (ws : List ClaimWorker),
      (runSchedule store ws sched).2.length = ws.length := by
  induction sched with
  | nil => intro store ws; rfl
  | cons i rest ih =>
    intro store ws
    rw [runSchedule]
    rw [ih]
    exact stepAt_length store ws i

lemma claimInv_initial {c : CallEntity} (ws : List ClaimWorker)
    (hws : ∀ w ∈ ws, initialWorker w) : ClaimInv c [c] ws := by
  have hcnt : claimedCount ws = 0 := by
    apply List.countP_eq_zero.mpr
    intro w hw
    obtain ⟨_, _, _, hcl⟩ := hws w hw
    simp [hcl]
  refine ⟨Or.inl ⟨rfl, hcnt⟩, fun w hw => ?_⟩
  obtain ⟨hrd, htg, hud, hcl⟩ := hws w hw
  exact ⟨fun _ => ⟨htg, hud⟩, fun x hx => absurd (htg ▸ hx) (by simp [htg, hx]),
    fun hr _ => absurd (hrd ▸ hr) (by simp [hrd]),
    fun hu => absurd (hud ▸ hu) (by simp [hud]),
    fun hc' => absurd (hcl ▸ hc') (by simp [hcl]),
    fun hu _ => absurd (hud ▸ hu) (by simp [hud])⟩

end Orchestrator


namespace Orchestrator

/-- C1: For every set of N concurrent invocations of the claim operation
(`fetchAndLockPendingCall`) contending for the same single `PENDING`
record, under every interleaving of their store operations in which all
invocations run to completion, exactly one invocation's conditional write
succeeds (that invocation returns the record transitioned to `IN_PROGRESS`
with `startedAt` set) and the other N−1 return none; along every
interleaving, complete or not, at most one invocation ever succeeds, so the
record is never assigned to more than one claimer. -/
theorem claim_race_exactly_one_winner
    (c : CallEntity) (ws₀ : List ClaimWorker) (sched : List Nat)
    (hc : c.status = .pending)
    (hws : ∀ w ∈ ws₀, initialWorker w) (hn : 0 < ws₀.length)
    (hfin : ∀ w ∈ (runSchedule [c] ws₀ sched).2, finishedW w) :
    claimedCount (runSchedule [c] ws₀ sched).2 = 1 ∧
    (runSchedule [c] ws₀ sched).2.length = ws₀.length ∧
    (∃ t, (runSchedule [c] ws₀ sched).1 = [claimedVersion c t] ∧
      (claimedVersion c t).status = .inProgress ∧ (claimedVersion c t).startedAt = some t) ∧
    (∀ sched' : List Nat, claimedCount (runSchedule [c] ws₀ sched').2 ≤ 1) := by
  obtain ⟨hdisj, hfacts⟩ := claimInv_runSchedule hc sched [c] ws₀ (claimInv_initial ws₀ hws)
  have hlen := runSchedule_length sched [c] ws₀
  have hcnt1 : claimedCount (runSchedule [c] ws₀ sched).2 = 1 := by
    rcases hdisj with ⟨hst, hcnt⟩ | ⟨t, hst, hcnt⟩
    · exfalso
      obtain ⟨w, hw⟩ : ∃ w, w ∈ (runSchedule [c] ws₀ sched).2 := by
        cases hws' : (runSchedule [c] ws₀ sched).2 with
        | nil => rw [hws'] at hlen; simp at hlen; omega
        | cons a l => exact ⟨a, by simp [hws']⟩
      obtain ⟨f1, f2, f3, f4, f5, f6⟩ := hfacts w hw
      obtain ⟨hrd, himp⟩ := hfin w hw
      cases htg : w.target with
      | none => have := f3 hrd htg; omega
      | some x =>
        have hud := himp (by simp [htg])
        cases hcl : w.claimed with
        | false => have := f6 hud hcl; omega
        | true =>
          have hpos : 0 < claimedCount (runSchedule [c] ws₀ sched).2 :=
            List.countP_pos_iff.mpr ⟨w, hw, by simp [hcl]⟩
          omega
    · exact hcnt
  refine ⟨hcnt1, hlen, ?_, ?_⟩
  · rcases hdisj with ⟨hst, hcnt⟩ | ⟨t, hst, hcnt⟩
    · omega
    · exact ⟨t, hst, rfl, rfl⟩
  · intro sched'
    obtain ⟨hdisj', _⟩ := claimInv_runSchedule hc sched' [c] ws₀ (claimInv_initial ws₀ hws)
    rcases hdisj' with ⟨_, hcnt'⟩ | ⟨_, _, hcnt'⟩ <;> omega

/-- Witness for C1 on concrete input: three workers, fully interleaved. -/
theorem claim_race_exactly_one_winner_witness :
    claimedCount (runSchedule [demoCall] demoWorkers demoSchedule).2 = 1 ∧
    (runSchedule [demoCall] demoWorkers demoSchedule).2.length = demoWorkers.length ∧
    (∃ t, (runSchedule [demoCall] demoWorkers demoSchedule).1 = [claimedVersion demoCall t] ∧
      (claimedVersion demoCall t).status = .inProgress ∧
      (claimedVersion demoCall t).startedAt = some t) ∧
    (∀ sched' : List Nat, claimedCount (runSchedule [demoCall] demoWorkers sched').2 ≤ 1) :=
  claim_race_exactly_one_winner demoCall demoWorkers demoSchedule (by decide) (by decide)
    (by decide) (by decide)

end Orchestrator

namespace Orchestrator

/-- C2 (refuted by the code): after a retryable failure at new attempt
count 1 at time 100 ms, redelivery eligibility is scheduled in the delay
queue at 100 ms + 2^1 s = 2100 ms, yet `fetchAndLockPendingCall` — whose
query filters on `status = PENDING` alone and never consults the delay
queue — claims the record at time 100 ms, before its eligibility time has
elapsed. -/
theorem claim_ignores_backoff_eligibility :
    (handleCallFailure [claimedDemoCall] [] claimedDemoCall
        ⟨true, "Request failed with status code 503"⟩ 3 100).2 = [("call-1", 2100)] ∧
    (100 : Nat) < 2100 ∧
    ((fetchAndLockPendingCall
        (handleCallFailure [claimedDemoCall] [] claimedDemoCall
          ⟨true, "Request failed with status code 503"⟩ 3 100).1
        100).1.map (fun c => (c.id, c.status))) = some ("call-1", CallStatus.inProgress) := by
  decide

/-- C3: a retryable failure whose new attempt count is below the retry cap
returns the record to `PENDING` with `attempts` incremented, `lastError`
set to the failure message and `startedAt` cleared, and schedules
redelivery eligibility at `now + 2^(attempts+1)` seconds in the delay
queue. -/
theorem retryable_failure_requeues
    (store : Store) (q : Queue) (c : CallEntity) (err : DispatchFailure)
    (maxRetryAttempts now : Nat)
    (hr : err.retryable = true) (hlt : c.attempts + 1 < maxRetryAttempts) :
    (∀ r ∈ (handleCallFailure store q c err maxRetryAttempts now).1, r.id = c.id →
      r.status = .pending ∧ r.attempts = c.attempts + 1 ∧
      r.lastError = some err.message ∧ r.startedAt = none) ∧
    (handleCallFailure store q c err maxRetryAttempts now).2 =
      q ++ [(c.id, now + 2 ^ (c.attempts + 1) * 1000)] := by
  have hcond : err.retryable = true ∧ c.attempts + 1 < maxRetryAttempts := ⟨hr, hlt⟩
  simp only [handleCallFailure, if_pos hcond, enqueueCallWithDelay]
  refine ⟨?_, by simp⟩
  intro r hmem hid
  simp only [updateById, List.mem_map] at hmem
  obtain ⟨a, ha, rfl⟩ := hmem
  by_cases h : a.id = c.id
  · simp [h, applyUpdate]
  · rw [if_neg h] at hid
    exact absurd hid h

/-- Witness for C3: one retryable failure of the demo record at attempt 0. -/
theorem retryable_failure_requeues_witness :
    (∀ r ∈ (handleCallFailure [claimedDemoCall] [] claimedDemoCall
        ⟨true, "boom"⟩ 3 100).1, r.id = claimedDemoCall.id →
      r.status = .pending ∧ r.attempts = claimedDemoCall.attempts + 1 ∧
      r.lastError = some (DispatchFailure.mk true "boom").message ∧ r.startedAt = none) ∧
    (handleCallFailure [claimedDemoCall] [] claimedDemoCall ⟨true, "boom"⟩ 3 100).2 =
      [] ++ [(claimedDemoCall.id, 100 + 2 ^ (claimedDemoCall.attempts + 1) * 1000)] :=
  retryable_failure_requeues [claimedDemoCall] [] claimedDemoCall ⟨true, "boom"⟩ 3 100
    (by decide) (by decide)

/-- C4: a failure that is non-retryable, or whose new attempt count has
reached the retry cap, makes the record terminal: `status = FAILED`,
`attempts` incremented, `lastError` set, `endedAt = now`, and nothing is
scheduled on the delay queue.  With the default cap 3 this covers the 3rd
retryable failure (2 + 1 < 3 fails) and any non-retryable failure at any
attempt count. -/
theorem failure_exhaustion_terminal
    (store : Store) (q : Queue) (c : CallEntity) (err : DispatchFailure)
    (maxRetryAttempts now : Nat)
    (h : err.retryable = false ∨ ¬ c.attempts + 1 < maxRetryAttempts) :
    (∀ r ∈ (handleCallFailure store q c err maxRetryAttempts now).1, r.id = c.id →
      r.status = .failed ∧ r.attempts = c.attempts + 1 ∧
      r.lastError = some err.message ∧ r.endedAt = some now) ∧
    (handleCallFailure store q c err maxRetryAttempts now).2 = q := by
  have hcond : ¬ (err.retryable = true ∧ c.attempts + 1 < maxRetryAttempts) := by
    rcases h with h | h
    · intro hand
      rw [h] at hand
      exact Bool.false_ne_true hand.1
    · intro hand
      exact h hand.2
  simp only [handleCallFailure, if_neg hcond]
  refine ⟨?_, by simp⟩
  intro r hmem hid
  simp only [updateById, List.mem_map] at hmem
  obtain ⟨a, ha, rfl⟩ := hmem
  by_cases hida : a.id = c.id
  · simp [hida, applyUpdate]
  · rw [if_neg hida] at hid
    exact absurd hid hida

/-- Witness for C4: the 3rd retryable failure (attempts 2 → 3) with the
default cap of 3 ends in terminal `FAILED`. -/
theorem failure_exhaustion_terminal_witness :
    (∀ r ∈ (handleCallFailure
        [{ claimedDemoCall with attempts := 2 }] [] { claimedDemoCall with attempts := 2 }
        ⟨true, "boom"⟩ 3 100).1, r.id = ({ claimedDemoCall with attempts := 2 } : CallEntity).id →
      r.status = .failed ∧
      r.attempts = ({ claimedDemoCall with attempts := 2 } : CallEntity).attempts + 1 ∧
      r.lastError = some (DispatchFailure.mk true "boom").message ∧ r.endedAt = some 100) ∧
    (handleCallFailure
        [{ claimedDemoCall with attempts := 2 }] [] { claimedDemoCall with attempts := 2 }
        ⟨true, "boom"⟩ 3 100).2 = [] :=
  failure_exhaustion_terminal [{ claimedDemoCall with attempts := 2 }] []
    { claimedDemoCall with attempts := 2 } ⟨true, "boom"⟩ 3 100 (by decide)

end Orchestrator

namespace Orchestrator

/-- C6: when a completion signal's correlation id matches a record, the
correlator maps `COMPLETED` to record status `COMPLETED` and each of
`FAILED`, `BUSY`, `NO_ANSWER` to record status `FAILED` with `lastError`
naming that provider outcome, and in all four cases sets `endedAt` to the
signal's `completedAt` timestamp. -/
theorem webhook_outcome_mapping
    (store : Store) (p : WebhookCallbackPayload) (now : Nat) (c : CallEntity)
    (hfind : findByExternalCallId store p.callId = some c) :
    ∀ r ∈ handleWebhookCallback store p now, r.id = c.id →
      r.endedAt = some p.completedAt ∧
      (p.status = .wCompleted → r.status = .completed) ∧
      (p.status = .wFailed → r.status = .failed ∧ r.lastError = some "AI call FAILED") ∧
      (p.status = .wBusy → r.status = .failed ∧ r.lastError = some "AI call BUSY") ∧
      (p.status = .wNoAnswer → r.status = .failed ∧ r.lastError = some "AI call NO_ANSWER") := by
  intro r hmem hid
  rw [handleWebhookCallback, hfind] at hmem
  simp only [updateById, List.mem_map] at hmem
  obtain ⟨a, ha, rfl⟩ := hmem
  by_cases h : a.id = c.id
  · cases hps : p.status <;>
      simp [h, hps, applyUpdate, WebhookStatus.name]
  · rw [if_neg h] at hid
    exact absurd hid h

/-- Witness for C6: a `BUSY` completion signal matching the demo record by
external correlation id maps it to `FAILED` with the outcome named in
`lastError` and `endedAt` taken from the signal. -/
theorem webhook_outcome_mapping_witness :
    ({ id := "call-1"
       payload := { toNumber := "+966501234567", scriptId := "welcomeFlow", metadata := none }
       status := .failed
       attempts := 0
       lastError := some "AI call BUSY"
       createdAt := 10
       startedAt := some 50
       endedAt := some 7000
       updatedAt := 7001
       externalCallId := some "ext-9" } : CallEntity) ∈
      handleWebhookCallback [{ claimedDemoCall with externalCallId := some "ext-9" }]
        ⟨"ext-9", .wBusy, some 42, 7000⟩ 7001 ∧
    (({ id := "call-1"
        payload := { toNumber := "+966501234567", scriptId := "welcomeFlow", metadata := none }
        status := .failed
        attempts := 0
        lastError := some "AI call BUSY"
        createdAt := 10
        startedAt := some 50
        endedAt := some 7000
        updatedAt := 7001
        externalCallId := some "ext-9" } : CallEntity).endedAt =
      some (WebhookCallbackPayload.mk "ext-9" .wBusy (some 42) 7000).completedAt) ∧
    (({ id := "call-1"
        payload := { toNumber := "+966501234567", scriptId := "welcomeFlow", metadata := none }
        status := .failed
        attempts := 0
        lastError := some "AI call BUSY"
        createdAt := 10
        startedAt := some 50
        endedAt := some 7000
        updatedAt := 7001
        externalCallId := some "ext-9" } : CallEntity).status = .failed ∧
      ({ id := "call-1"
         payload := { toNumber := "+966501234567", scriptId := "welcomeFlow", metadata := none }
         status := .failed
         attempts := 0
         lastError := some "AI call BUSY"
         createdAt := 10
         startedAt := some 50
         endedAt := some 7000
         updatedAt := 7001
         externalCallId := some "ext-9" } : CallEntity).lastError = some "AI call BUSY") := by
  have h := webhook_outcome_mapping
    [{ claimedDemoCall with externalCallId := some "ext-9" }]
    ⟨"ext-9", .wBusy, some 42, 7000⟩ 7001
    { claimedDemoCall with externalCallId := some "ext-9" } (by decide)
    { id := "call-1"
      payload := { toNumber := "+966501234567", scriptId := "welcomeFlow", metadata := none }
      status := .failed
      attempts := 0
      lastError := some "AI call BUSY"
      createdAt := 10
      startedAt := some 50
      endedAt := some 7000
      updatedAt := 7001
      externalCallId := some "ext-9" } (by decide) (by decide)
  exact ⟨by decide, h.1, h.2.2.2.1 rfl⟩

/-- C7: the failure classifier marks a dispatch outcome retryable exactly
for a connection failure (`ECONNREFUSED`), a timeout (`ETIMEDOUT`), an
HTTP 5xx response, or an HTTP 429 response; a 4xx response other than 429
is non-retryable; and the only successful outcome is an HTTP 202 response
carrying the provider body with its correlation id. -/
theorem dispatch_classification
    (r : ProviderResult)
    (hrange : ∀ s b, r = .http s b → 100 ≤ s ∧ s ≤ 599) :
    ((∃ b, initiateCall r = .ok b) ↔ (∃ b, r = .http 202 b)) ∧
    (isRetryableOutcome (initiateCall r) = true ↔
      (r = .netError "ECONNREFUSED" ∨ r = .netError "ETIMEDOUT" ∨
       (∃ s b, r = .http s b ∧ ((500 ≤ s ∧ s ≤ 599) ∨ s = 429)))) ∧
    (∀ s b, r = .http s b → 400 ≤ s → s ≤ 499 → s ≠ 429 →
      isNonRetryableOutcome (initiateCall r) = true) := by
  cases r with
  | http s b =>
    obtain ⟨hlo, hhi⟩ := hrange s b rfl
    by_cases h2xx : 200 ≤ s ∧ s < 300
    · by_cases h202 : s = 202
      · subst h202
        refine ⟨⟨fun _ => ⟨b, rfl⟩, fun _ => ?_⟩, ?_, ?_⟩
        · exact ⟨b, by simp [initiateCall]⟩
        · constructor
          · intro hret
            simp [initiateCall, isRetryableOutcome] at hret
          · rintro (h | h | ⟨s', b', heq, hcase⟩)
            · exact absurd h (by simp)
            · exact absurd h (by simp)
            · obtain ⟨hs, _⟩ := ProviderResult.http.inj heq
              subst hs
              omega
        · intro s' b' heq h400 _ _
          obtain ⟨hs, _⟩ := ProviderResult.http.inj heq
          omega
      · have hstep : initiateCall (.http s b) =
            .error (.nonRetryable ("Unexpected response status: " ++ toString s)) := by
          simp [initiateCall, h2xx, h202, isRetryableError]
        refine ⟨⟨fun ⟨b', hb'⟩ => ?_, fun ⟨b', hb'⟩ => ?_⟩, ?_, ?_⟩
        · rw [hstep] at hb'
          exact absurd hb' (by simp)
        · obtain ⟨hs, _⟩ := ProviderResult.http.inj hb'
          exact absurd hs h202
        · constructor
          · intro hret
            rw [hstep] at hret
            simp [isRetryableOutcome] at hret
          · rintro (h | h | ⟨s', b', heq, hcase⟩)
            · exact absurd h (by simp)
            · exact absurd h (by simp)
            · obtain ⟨hs, _⟩ := ProviderResult.http.inj heq
              subst hs
              omega
        · intro s' b' heq h400 h499 _
          obtain ⟨hs, _⟩ := ProviderResult.http.inj heq
          subst hs
          omega
    · have hstep : initiateCall (.http s b) =
          if isRetryableError ⟨none, some s⟩ then
            .error (.retryable ("Request failed with status code " ++ toString s))
          else .error (.nonRetryable ("Request failed with status code " ++ toString s)) := by
        simp [initiateCall, h2xx]
      have hdec : isRetryableError ⟨none, some s⟩ = decide (500 ≤ s ∨ s = 429) := by
        simp [isRetryableError]
      refine ⟨⟨fun ⟨b', hb'⟩ => ?_, fun ⟨b', hb'⟩ => ?_⟩, ?_, ?_⟩
      · rw [hstep] at hb'
        by_cases hretr : isRetryableError ⟨none, some s⟩ = true
        · rw [if_pos hretr] at hb'
          exact absurd hb' (by simp)
        · rw [if_neg hretr] at hb'
          exact absurd hb' (by simp)
      · obtain ⟨hs, _⟩ := ProviderResult.http.inj hb'
        subst hs
        omega
      · constructor
        · intro hret
          rw [hstep] at hret
          by_cases hcond : isRetryableError ⟨none, some s⟩ = true
          · rw [hdec, decide_eq_true_eq] at hcond
            refine Or.inr (Or.inr ⟨s, b, rfl, ?_⟩)
            rcases hcond with h5 | h429
            · exact Or.inl ⟨h5, hhi⟩
            · exact Or.inr h429
          · rw [if_neg hcond] at hret
            simp [isRetryableOutcome] at hret
        · rintro (h | h | ⟨s', b', heq, hcase⟩)
          · exact absurd h (by simp)
          · exact absurd h (by simp)
          · obtain ⟨hs, _⟩ := ProviderResult.http.inj heq
            subst hs
            have hcond : isRetryableError ⟨none, some s⟩ = true := by
              rw [hdec, decide_eq_true_eq]
              rcases hcase with ⟨h5, _⟩ | h429
              · exact Or.inl h5
              · exact Or.inr h429
            rw [hstep, if_pos hcond]
            simp [isRetryableOutcome]
      · intro s' b' heq h400 h499 h429
        obtain ⟨hs, _⟩ := ProviderResult.http.inj heq
        subst hs
        have hcond : isRetryableError ⟨none, some s⟩ = false := by
          rw [hdec, decide_eq_false_iff_not]
          intro hor
          rcases hor with h5 | hx
          · omega
          · exact h429 hx
        rw [hstep, if_neg (by rw [hcond]; simp)]
        simp [isNonRetryableOutcome]
  | netError code =>
    have hstep : initiateCall (.netError code) =
        if isRetryableError ⟨some code, none⟩ then .error (.retryable code)
        else .error (.nonRetryable code) := by
      simp [initiateCall]
    have hretr : isRetryableError ⟨some code, none⟩ =
        decide (code = "ECONNREFUSED" ∨ code = "ETIMEDOUT") := by
      simp [isRetryableError]
    refine ⟨⟨fun ⟨b', hb'⟩ => ?_, fun ⟨b', hb'⟩ => ?_⟩, ?_, ?_⟩
    · rw [hstep] at hb'
      by_cases hcond : isRetryableError ⟨some code, none⟩ = true
      · rw [if_pos hcond] at hb'
        exact absurd hb' (by simp)
      · rw [if_neg hcond] at hb'
        exact absurd hb' (by simp)
    · exact absurd hb' (by simp)
    · constructor
      · intro hret
        rw [hstep] at hret
        by_cases hcond : isRetryableError ⟨some code, none⟩ = true
        · rw [hretr, decide_eq_true_eq] at hcond
          rcases hcond with h | h
          · exact Or.inl (by rw [h])
          · exact Or.inr (Or.inl (by rw [h]))
        · rw [if_neg hcond] at hret
          simp [isRetryableOutcome] at hret
      · rintro (h | h | ⟨s', b', heq, _⟩)
        · obtain hc := ProviderResult.netError.inj h
          subst hc
          rw [hstep, if_pos (by rw [hretr]; simp)]
          simp [isRetryableOutcome]
        · obtain hc := ProviderResult.netError.inj h
          subst hc
          rw [hstep, if_pos (by rw [hretr]; simp)]
          simp [isRetryableOutcome]
        · exact absurd heq (by simp)
    · intro s' b' heq _ _ _
      exact absurd heq (by simp)

end Orchestrator

namespace Orchestrator

/-- Witness for C7 at a concrete 503 response. -/
theorem dispatch_classification_witness :
    ((∃ b, initiateCall (ProviderResult.http 503 ⟨"ext-1", "error"⟩) = .ok b) ↔
      (∃ b, ProviderResult.http 503 ⟨"ext-1", "error"⟩ = ProviderResult.http 202 b)) ∧
    (isRetryableOutcome (initiateCall (ProviderResult.http 503 ⟨"ext-1", "error"⟩)) = true ↔
      (ProviderResult.http 503 ⟨"ext-1", "error"⟩ = .netError "ECONNREFUSED" ∨
       ProviderResult.http 503 ⟨"ext-1", "error"⟩ = .netError "ETIMEDOUT" ∨
       (∃ s b, ProviderResult.http 503 ⟨"ext-1", "error"⟩ = .http s b ∧
         ((500 ≤ s ∧ s ≤ 599) ∨ s = 429)))) ∧
    (∀ s b, ProviderResult.http 503 ⟨"ext-1", "error"⟩ = .http s b → 400 ≤ s → s ≤ 499 →
      s ≠ 429 →
      isNonRetryableOutcome (initiateCall (ProviderResult.http 503 ⟨"ext-1", "error"⟩)) = true) :=
  dispatch_classification (ProviderResult.http 503 ⟨"ext-1", "error"⟩)
    (fun s b h => by
      obtain ⟨hs, _⟩ := ProviderResult.http.inj h
      exact hs ▸ ⟨by decide, by decide⟩)

/-- C5 counterexample: the record `call-1` is already terminal
(`COMPLETED`), yet delivering a `FAILED` completion signal for its
correlation id mutates it again — the correlator applies the transition
without checking the current status. -/
theorem webhook_mutates_terminal_record :
    completedDemoCall.status = .completed ∧
    (handleWebhookCallback [completedDemoCall] ⟨"ext-9", .wFailed, none, 200⟩ 200).map
        (fun r => (r.status, r.endedAt, r.lastError)) =
      [(CallStatus.failed, some 200, some "AI call FAILED")] ∧
    handleWebhookCallback [completedDemoCall] ⟨"ext-9", .wFailed, none, 200⟩ 200 ≠
      [completedDemoCall] := by
  decide

/-- C5 (amended): the guarded paths preserve terminal records — `updateCall`
rejects any non-`PENDING` record, and `fetchAndLockPendingCall` and
`markExpiredCalls` modify only `PENDING` rows — but the completion
correlator applies its transition with no terminal-status check: a matched
callback overwrites `status` and `endedAt` even when the record is already
terminal, so a duplicate or late completion signal does cause a second
mutation. -/
theorem terminal_guard_missing_in_correlator (store : Store) (now : Nat) :
    (∀ (id : String) (req : UpdateCallRequest) (r₀ : CallEntity),
      findById store id = some r₀ →
      (r₀.status = .completed ∨ r₀.status = .failed ∨ r₀.status = .expired) →
      updateCall store id req now = .error "Can only update calls with PENDING status") ∧
    (∀ r ∈ store, r.status ≠ .pending → r ∈ (fetchAndLockPendingCall store now).2) ∧
    (∀ maxAge : Nat, ∀ r ∈ store, r.status ≠ .pending →
      r ∈ (markExpiredCalls store maxAge now).2) ∧
    (∀ (p : WebhookCallbackPayload) (c : CallEntity),
      findByExternalCallId store p.callId = some c →
      ∀ r ∈ handleWebhookCallback store p now, r.id = c.id →
        r.status = (if p.status = .wCompleted then CallStatus.completed else .failed) ∧
        r.endedAt = some p.completedAt) := by
  refine ⟨?_, ?_, ?_, ?_⟩
  · intro id req r₀ hfind hterm
    have : ¬ r₀.status = CallStatus.pending := by
      rcases hterm with h | h | h <;> rw [h] <;> intro hx <;> exact CallStatus.noConfusion hx
    simp only [updateCall, hfind]
    rw [if_neg this]
  · intro r hr hstat
    rcases hsel : selectOldestPending store with _ | c
    · simp only [fetchAndLockPendingCall, hsel]
      exact hr
    · have hmem : r ∈ (conditionalClaim store c.id now).2 := by
        simp only [conditionalClaim]
        refine List.mem_map.mpr ⟨r, hr, ?_⟩
        rw [if_neg]
        intro hand
        exact hstat hand.2
      simp only [fetchAndLockPendingCall, hsel]
      by_cases hok : (conditionalClaim store c.id now).1 = true
      · simp only [hok, if_true]
        exact hmem
      · simp only [Bool.not_eq_true] at hok
        simp only [hok, Bool.false_eq_true, if_false]
        exact hmem
  · intro maxAge r hr hstat
    simp only [markExpiredCalls]
    refine List.mem_map.mpr ⟨r, hr, ?_⟩
    rw [if_neg]
    intro hand
    exact hstat hand.1
  · intro p c hfind r hmem hid
    rw [handleWebhookCallback, hfind] at hmem
    simp only [updateById, List.mem_map] at hmem
    obtain ⟨a, ha, rfl⟩ := hmem
    by_cases h : a.id = c.id
    · by_cases hps : p.status = WebhookStatus.wCompleted <;>
        simp [h, hps, applyUpdate]
    · rw [if_neg h] at hid
      exact absurd hid h

/-- Witness for C5's amended theorem on the concrete terminal record. -/
theorem terminal_guard_missing_in_correlator_witness :
    updateCall [completedDemoCall] "call-1" ⟨none⟩ 200 =
      .error "Can only update calls with PENDING status" ∧
    completedDemoCall ∈ (fetchAndLockPendingCall [completedDemoCall] 200).2 ∧
    completedDemoCall ∈ (markExpiredCalls [completedDemoCall] 500 200).2 ∧
    (∀ r ∈ handleWebhookCallback [completedDemoCall] ⟨"ext-9", .wFailed, none, 200⟩ 200,
      r.id = completedDemoCall.id → r.status = .failed ∧ r.endedAt = some 200) := by
  obtain ⟨h1, h2, h3, h4⟩ := terminal_guard_missing_in_correlator [completedDemoCall] 200
  refine ⟨h1 "call-1" ⟨none⟩ completedDemoCall (by decide) (by decide),
    h2 completedDemoCall (by decide) (by decide),
    h3 500 completedDemoCall (by decide) (by decide),
    fun r hmem hid => ?_⟩
  have hres := h4 ⟨"ext-9", .wFailed, none, 200⟩ completedDemoCall (by decide) r hmem hid
  simpa using hres

/-- C8 (the conflict path surfaces as a 500, not a conflict): creating a
call for a destination that already has a `PENDING` call performs no insert
and raises the conflict message, but the controller recognizes conflicts by
the substring `"already in progress"` while the service throws
`"Call already active for phone number: …"`, so the caller receives an
internal server error instead of a conflict; with no active call for the
destination, a fresh `PENDING` record with `attempts = 0` is inserted. -/
theorem create_conflict_surfaces_as_server_error :
    createCall [demoCall] ⟨"+966501234567", "welcomeFlow", none⟩ "id-2" 300 =
      .error "Call already active for phone number: +966501234567 (Status: PENDING)" ∧
    strContains "Call already active for phone number: +966501234567 (Status: PENDING)"
      "already in progress" = false ∧
    createCallController [demoCall] ⟨"+966501234567", "welcomeFlow", none⟩ "id-2" 300 =
      (.serverError, [demoCall]) ∧
    createCallController [] ⟨"+966501234567", "welcomeFlow", none⟩ "id-2" 300 =
      (.created
        { id := "id-2"
          payload := { toNumber := "+966501234567", scriptId := "welcomeFlow", metadata := none }
          status := .pending
          attempts := 0
          lastError := none
          createdAt := 300
          startedAt := none
          endedAt := none
          updatedAt := 300
          externalCallId := none },
       [{ id := "id-2"
          payload := { toNumber := "+966501234567", scriptId := "welcomeFlow", metadata := none }
          status := .pending
          attempts := 0
          lastError := none
          createdAt := 300
          startedAt := none
          endedAt := none
          updatedAt := 300
          externalCallId := none }]) := by
  decide

end Orchestrator

namespace Orchestrator

/-- C9 counterexample: a requested limit of 500 is rejected with a
validation error (it is not clamped to 100), and a requested page of 0 is
not caught by the validation guard — JavaScript `0` is falsy, so it
bypasses `query.page && query.page < 1` — yet the request does not succeed
either: the repository computes `skip = -limit`, the store rejects the
negative offset, and the controller answers a 500 internal server error
instead of a validation rejection. -/
theorem pagination_counterexample :
    listCalls [demoCall] ⟨none, none, some 500⟩ =
      .validationError "Limit must be between 1 and 100" ∧
    listCalls [demoCall] ⟨none, some 0, none⟩ = .serverError ∧
    listCalls [demoCall] ⟨none, some 0, none⟩ ≠
      .validationError "Page must be greater than 0" := by
  decide

lemma ceilPages_bounds (t : Nat) (l : Int) (hl : 1 ≤ l) :
    t ≤ ceilPages t l * l.toNat ∧ ceilPages t l * l.toNat < t + l.toNat := by
  have hk : 0 < l.toNat := by omega
  constructor
  · have h := le_smul_ceilDiv hk (b := t)
    rw [smul_eq_mul, Nat.ceilDiv_eq_add_pred_div] at h
    simp only [ceilPages]
    calc t ≤ l.toNat * ((t + l.toNat - 1) / l.toNat) := h
      _ = (t + l.toNat - 1) / l.toNat * l.toNat := Nat.mul_comm _ _
  · have h := Nat.div_mul_le_self (t + l.toNat - 1) l.toNat
    simp only [ceilPages]
    set m := (t + l.toNat - 1) / l.toNat * l.toNat with hm
    omega

/-- C9 (amended): a requested limit above 100 is rejected with a validation
error rather than clamped; a requested page of 0 bypasses the page guard
(JavaScript `0` is falsy) but still fails — the store rejects the negative
offset `skip = -limit` and the error surfaces as a 500 internal server
error, not a validation rejection; on accepted inputs the response echoes
the requested page and limit and reports `totalPages = ceil(total / limit)`
(characterized by the bounds `total ≤ totalPages · limit < total + limit`). -/
theorem pagination_behaviour
    (store : Store) (st : Option CallStatus) (p l big : Int)
    (hp : 1 ≤ p) (hl : 1 ≤ l) (hl2 : l ≤ 100) (hbig : 100 < big) :
    listCalls store ⟨st, some p, some big⟩ =
      .validationError "Limit must be between 1 and 100" ∧
    listCalls store ⟨st, some 0, some l⟩ = .serverError ∧
    (∃ cs t, findWithPagination store ⟨st, some p, some l⟩ = .ok (cs, t) ∧
      listCalls store ⟨st, some p, some l⟩ = .ok cs t p l (ceilPages t l) ∧
      t ≤ ceilPages t l * l.toNat ∧ ceilPages t l * l.toNat < t + l.toNat) := by
  have hpg : decide (p ≠ 0 ∧ p < 1) = false := by
    rw [decide_eq_false_iff_not]
    omega
  have hbigg : decide (big ≠ 0 ∧ (big < 1 ∨ 100 < big)) = true := by
    rw [decide_eq_true_eq]
    omega
  have hlg : decide (l ≠ 0 ∧ (l < 1 ∨ 100 < l)) = false := by
    rw [decide_eq_false_iff_not]
    omega
  have hzg : decide ((0 : Int) ≠ 0 ∧ (0 : Int) < 1) = false := by decide
  have hpne : ¬ p = 0 := by omega
  have hlne : ¬ l = 0 := by omega
  refine ⟨?_, ?_, ?_⟩
  · simp only [listCalls, hpg, hbigg, Bool.false_eq_true, if_false, if_true]
  · have herr : findWithPagination store ⟨st, some 0, some l⟩ =
        .error "OFFSET and LIMIT must not be negative" := by
      simp only [findWithPagination, Option.getD_some]
      rw [if_pos]
      exact Or.inl (by omega)
    simp only [listCalls, hzg, hlg, Bool.false_eq_true, if_false, herr]
  · have hnneg : ¬ ((p - 1) * l < 0 ∨ l < 0) := by
      have hskip : 0 ≤ (p - 1) * l := mul_nonneg (by omega) (by omega)
      intro hd
      rcases hd with hd | hd
      · exact absurd hd (not_lt.mpr hskip)
      · omega
    obtain ⟨pr, hpr⟩ : ∃ pr, findWithPagination store ⟨st, some p, some l⟩ = .ok pr := by
      simp only [findWithPagination, Option.getD_some]
      rw [if_neg hnneg]
      exact ⟨_, rfl⟩
    obtain ⟨hlow, hhigh⟩ := ceilPages_bounds pr.2 l hl
    refine ⟨pr.1, pr.2, hpr, ?_, hlow, hhigh⟩
    simp only [listCalls, hpg, hlg, Bool.false_eq_true, if_false, hpr, jsOr, hpne, hlne,
      if_neg]

/-- Witness for C9's amended theorem: limit 500 rejected, page 0 surfacing
as a 500, totalPages reported for page 1, limit 10 over a one-record
store. -/
theorem pagination_behaviour_witness :
    listCalls [demoCall] ⟨none, some 1, some 500⟩ =
      .validationError "Limit must be between 1 and 100" ∧
    listCalls [demoCall] ⟨none, some 0, some 10⟩ = .serverError ∧
    (∃ cs t, findWithPagination [demoCall] ⟨none, some 1, some 10⟩ = .ok (cs, t) ∧
      listCalls [demoCall] ⟨none, some 1, some 10⟩ = .ok cs t 1 10 (ceilPages t 10) ∧
      t ≤ ceilPages t 10 * (10 : Int).toNat ∧
      ceilPages t 10 * (10 : Int).toNat < t + (10 : Int).toNat) :=
  pagination_behaviour [demoCall] none 1 10 500 (by decide) (by decide) (by decide) (by decide)

end Orchestrator

namespace Orchestrator

lemma findById_unique {store : Store} {id : String} {r₀ : CallEntity}
    (hnd : store.Pairwise (fun a b => a.id ≠ b.id))
    (hfind : findById store id = some r₀) :
    ∀ r ∈ store, r.id = id → r = r₀ := by
  induction store with
  | nil => simp [findById] at hfind
  | cons a rest ih =>
    obtain ⟨hahead, htail⟩ := List.pairwise_cons.mp hnd
    intro r hr hid
    by_cases ha : a.id = id
    · rw [findById, List.find?_cons_of_pos _ (by simp [ha])] at hfind
      obtain rfl := Option.some.inj hfind
      rcases List.mem_cons.mp hr with rfl | hr'
      · rfl
      · exact absurd (hid.trans ha.symm) (Ne.symm (hahead r hr'))
    · rw [findById, List.find?_cons_of_neg _ (by simp [ha])] at hfind
      rcases List.mem_cons.mp hr with rfl | hr'
      · exact absurd hid ha
      · exact ih htail hfind r hr' hid

/-- C10: updating an existing `PENDING` call merges the partial payload
delta into the stored payload — each payload key absent from the delta
keeps its previous value, and an absent delta leaves the payload intact —
while `id`, `status`, `attempts`, `lastError`, `createdAt`, `startedAt` and
`endedAt` are unchanged, and rows with other ids are untouched. -/
theorem update_merges_payload_and_frames
    (store : Store) (id : String) (req : UpdateCallRequest) (now : Nat) (r₀ : CallEntity)
    (hnd : store.Pairwise (fun a b => a.id ≠ b.id))
    (hfind : findById store id = some r₀)
    (hst : r₀.status = .pending) :
    ∃ store', updateCall store id req now = .ok (findById store' id, store') ∧
      (∀ r ∈ store', r.id = id →
        r.status = r₀.status ∧ r.attempts = r₀.attempts ∧ r.lastError = r₀.lastError ∧
        r.createdAt = r₀.createdAt ∧ r.startedAt = r₀.startedAt ∧ r.endedAt = r₀.endedAt ∧
        r.payload = mergePayload r₀.payload req.payload ∧
        (req.payload = none → r.payload = r₀.payload) ∧
        (∀ δ, req.payload = some δ →
          (δ.toNumber = none → r.payload.toNumber = r₀.payload.toNumber) ∧
          (δ.scriptId = none → r.payload.scriptId = r₀.payload.scriptId) ∧
          (δ.metadata = none → r.payload.metadata = r₀.payload.metadata))) ∧
      (∀ r ∈ store, r.id ≠ id → r ∈ store') := by
  refine ⟨updateById store id
    ⟨some (mergePayload r₀.payload req.payload), none, none, none, none, none, none⟩ now,
    ?_, ?_, ?_⟩
  · simp only [updateCall, hfind, hst, if_pos]
  · intro r hr hid
    simp only [updateById, List.mem_map] at hr
    obtain ⟨a, ha, rfl⟩ := hr
    by_cases h : a.id = id
    · have haeq : a = r₀ := findById_unique hnd hfind a ha h
      subst haeq
      refine ⟨by simp [h, applyUpdate], by simp [h, applyUpdate], by simp [h, applyUpdate],
        by simp [h, applyUpdate], by simp [h, applyUpdate], by simp [h, applyUpdate],
        by simp [h, applyUpdate], ?_, ?_⟩
      · intro hnone
        simp [h, applyUpdate, mergePayload, hnone]
      · intro δ hδ
        refine ⟨fun hto => ?_, fun hsc => ?_, fun hmd => ?_⟩
        · simp [h, applyUpdate, mergePayload, hδ, hto]
        · simp [h, applyUpdate, mergePayload, hδ, hsc]
        · simp [h, applyUpdate, mergePayload, hδ, hmd]
    · rw [if_neg h] at hid
      exact absurd hid h
  · intro r hr hne
    simp only [updateById, List.mem_map]
    exact ⟨r, hr, by rw [if_neg hne]⟩

/-- Witness for C10: merging a delta that names only `scriptId` into the
demo record keeps `to` and `metadata` and all frame fields. -/
theorem update_merges_payload_and_frames_witness :
    ∃ store', updateCall [demoCall] "call-1" ⟨some ⟨none, some "otherFlow", none⟩⟩ 400 =
      .ok (findById store' "call-1", store') ∧
      (∀ r ∈ store', r.id = "call-1" →
        r.status = demoCall.status ∧ r.attempts = demoCall.attempts ∧
        r.lastError = demoCall.lastError ∧
        r.createdAt = demoCall.createdAt ∧ r.startedAt = demoCall.startedAt ∧
        r.endedAt = demoCall.endedAt ∧
        r.payload = mergePayload demoCall.payload
          (UpdateCallRequest.mk (some ⟨none, some "otherFlow", none⟩)).payload ∧
        ((UpdateCallRequest.mk (some ⟨none, some "otherFlow", none⟩)).payload = none →
          r.payload = demoCall.payload) ∧
        (∀ δ, (UpdateCallRequest.mk (some ⟨none, some "otherFlow", none⟩)).payload = some δ →
          (δ.toNumber = none → r.payload.toNumber = demoCall.payload.toNumber) ∧
          (δ.scriptId = none → r.payload.scriptId = demoCall.payload.scriptId) ∧
          (δ.metadata = none → r.payload.metadata = demoCall.payload.metadata))) ∧
      (∀ r ∈ [demoCall], r.id ≠ "call-1" → r ∈ store') :=
  update_merges_payload_and_frames [demoCall] "call-1" ⟨some ⟨none, some "otherFlow", none⟩⟩
    400 demoCall (by decide) (by decide) (by decide)

end Orchestrator
